import Mathlib

/-!
# Event relay: envelope, logging broker and broadcaster

A shallow embedding of `pkg/events/envelope.go`, `pkg/brokers/stdout.go` and
`pkg/broadcaster/broadcaster.go`.

Conventions of the embedding.

* A Go pointer or interface that may be nil is an `Option`; `none` is nil.
* A Go `map[string]string` is an association list without duplicate keys
  (`AList`); a nil map is `none`, an allocated map is `some m`.
* A function that may abort with a run-time panic returns an `Outcome`.
* Methods with a pointer receiver that mutate it return the updated value.
* Calls that leave the process (logger, broker) are recorded in a trace of
  `Effect`s, in program order.
-/

namespace Relay

/-! ## Go run-time values -/

/-- Result of running a Go function body: a normal return or a run-time panic. -/
inductive Outcome (α : Type) where
  | ret (a : α)
  | panic (msg : String)
deriving DecidableEq, Repr

/-- Panic raised by a write to a nil map. -/
def nilMapPanic : String := "assignment to entry in nil map"

/-- Panic raised by a method call or field access through nil. -/
def nilDerefPanic : String := "invalid memory address or nil pointer dereference"

/-- Panic raised by a failed single-value type assertion `x.(T)`. -/
def typeAssertPanic : String := "interface conversion: missing method Content"

/-- A Go `error` value that is not nil. `withMessage` is the value built by
`errors.Wrap` of `github.com/pkg/errors` around a cause. -/
inductive GoError where
  | fundamental (msg : String)
  | withMessage (cause : GoError) (msg : String)
deriving DecidableEq, Repr

/-- The `Error()` text: `errors.Wrap` prefixes the message to the cause's text. -/
def GoError.Error : GoError → String
  | .fundamental msg => msg
  | .withMessage cause msg => msg ++ ": " ++ cause.Error

/-- A value held in a Go `interface{}`: the nil interface, a resource object of
type `R`, or the anonymous struct `{OldObj, NewObj interface{}}` that `OnUpdate`
builds. -/
inductive Any (R : Type) where
  | nil
  | val (r : R)
  | oldNew (oldObj newObj : Any R)
deriving DecidableEq, Repr

/-! ## pkg/events/envelope.go -/

/-- The Go type `map[string]string` when allocated. -/
abbrev StrMap := AList (fun _ : String => String)

/-- Go `type Header struct { Headers map[string]string }`; `none` is the nil map. -/
structure Header where
  Headers : Option StrMap
deriving DecidableEq

/-- Go `type Envelope struct { Header *Header; Message interface{} }`. -/
structure Envelope (R : Type) where
  Header : Option Header
  Message : Any R
deriving DecidableEq

/-- The zero value `events.Envelope{}`. -/
def Envelope.zero (R : Type) : Envelope R := { Header := none, Message := .nil }

/-- Go `func (e *Envelope) AddHeader(key, value string)`: allocates the header
with an empty map when `e.Header == nil`, then assigns `e.Header.Headers[key]`.
The assignment panics when the map is nil. -/
def Envelope.AddHeader {R : Type} (e : Envelope R) (key value : String) :
    Outcome (Envelope R) :=
  let e1 : Envelope R :=
    match e.Header with
    | none => { e with Header := some { Headers := some ∅ } }
    | some _ => e
  match e1.Header with
  | none => .panic nilDerefPanic
  | some h =>
    match h.Headers with
    | none => .panic nilMapPanic
    | some m => .ret { e1 with Header := some { Headers := some (m.insert key value) } }

/-- Reading `e.Header.Headers[key]` where that is defined: a nil map reads as
empty. -/
def Envelope.header? {R : Type} (e : Envelope R) (key : String) : Option String :=
  match e.Header with
  | none => none
  | some h =>
    match h.Headers with
    | none => none
    | some m => m.lookup key

/-- The keys of the header mapping, one list element per map entry. -/
def Envelope.headerKeys {R : Type} (e : Envelope R) : List String :=
  match e.Header with
  | none => []
  | some h =>
    match h.Headers with
    | none => []
    | some m => m.keys

/-- The header container and its mapping are both non-nil. -/
def Envelope.allocated {R : Type} (e : Envelope R) : Bool :=
  match e.Header with
  | none => false
  | some h => h.Headers.isSome

/-- The call `AddHeader(key, v1)` followed by `AddHeader(key, v2)`. -/
def Envelope.AddHeaderTwice {R : Type} (e : Envelope R) (key v1 v2 : String) :
    Outcome (Envelope R) :=
  match e.AddHeader key v1 with
  | .panic msg => .panic msg
  | .ret e1 => e1.AddHeader key v2

/-! ## pkg/events: events -/

/-- Modelled from the spec: the `Event` interface of `pkg/events`, whose
declaration is absent from the sources. An event answers `EventType()` with a
string token; it may in addition provide the `Message` capability, whose
`Content()` is the underlying content. `Content? = none` is an event whose
dynamic type does not implement `events.Message`. -/
structure Event (R : Type) where
  EventType : String
  Content? : Option (Any R)
deriving DecidableEq

/-- Modelled from the spec: `events.EventMessage`, the message wrapper built by
the broadcaster's handlers; its content is its `Body`. -/
structure EventMessage (R : Type) where
  Body : Any R

/-- Modelled from the spec: `events.OnAdded`, a constructor tagging the
message with the kind Added, token "added". -/
def OnAdded {R : Type} (message : EventMessage R) : Event R :=
  { EventType := "added", Content? := some message.Body }

/-- Modelled from the spec: `events.OnUpdated`, a constructor tagging the
message with the kind Updated, token "updated". -/
def OnUpdated {R : Type} (message : EventMessage R) : Event R :=
  { EventType := "updated", Content? := some message.Body }

/-- Modelled from the spec: `events.OnDeleted`, a constructor tagging the
message with the kind Deleted, token "deleted". -/
def OnDeleted {R : Type} (message : EventMessage R) : Event R :=
  { EventType := "deleted", Content? := some message.Body }

/-! ## encoding/json on the envelope types

`json.Marshal` is followed down to the document it produces for the struct
declarations and field tags of `envelope.go`; how a resource object of type
`R` is serialized (or rejected) is a parameter `enc`. -/

/-- A JSON document. -/
inductive Json where
  | null
  | bool (b : Bool)
  | num (literal : String)
  | str (s : String)
  | arr (items : List Json)
  | obj (fields : List (String × Json))

/-- The member `key` of a JSON object, if the document is an object having it. -/
def Json.get (key : String) : Json → Option Json
  | .obj fields => fields.lookup key
  | _ => none

/-- Follow a path of member names from the top of the document. -/
def Json.path : List String → Json → Option Json
  | [], doc => some doc
  | key :: rest, doc =>
    match doc.get key with
    | none => none
    | some sub => Json.path rest sub

/-- Marshalling of an `interface{}` value: nil is `null`, the anonymous struct
of `OnUpdate` is an object with members `OldObj` and `NewObj`. -/
def Any.marshal {R : Type} (enc : R → Except GoError Json) : Any R → Except GoError Json
  | .nil => .ok .null
  | .val r => enc r
  | .oldNew oldObj newObj =>
    match Any.marshal enc oldObj with
    | .error err => .error err
    | .ok o =>
      match Any.marshal enc newObj with
      | .error err => .error err
      | .ok n => .ok (.obj [("OldObj", o), ("NewObj", n)])

/-- Marshalling of an allocated `map[string]string`: an object of strings. -/
def StrMap.marshal (m : StrMap) : Json :=
  .obj (m.entries.map fun kv => (kv.1, Json.str kv.2))

/-- Marshalling of `Header`: one member, tagged `headers`. -/
def Header.marshal (h : Header) : Json :=
  .obj [("headers", match h.Headers with
                    | none => .null
                    | some m => StrMap.marshal m)]

/-- Marshalling of `Envelope`: members tagged `header` and `message`. -/
def Envelope.marshal {R : Type} (enc : R → Except GoError Json) (e : Envelope R) :
    Except GoError Json :=
  let header : Json :=
    match e.Header with
    | none => .null
    | some h => h.marshal
  match e.Message.marshal enc with
  | .error err => .error err
  | .ok message => .ok (.obj [("header", header), ("message", message)])

/-- The call `json.Marshal(envelope)` on a `*Envelope`; a nil pointer is `null`. -/
def jsonMarshal {R : Type} (enc : R → Except GoError Json) :
    Option (Envelope R) → Except GoError Json
  | none => .ok .null
  | some e => e.marshal enc

/-- Go `func (e *Envelope) Encode() ([]byte, error)`. -/
def Envelope.Encode {R : Type} (enc : R → Except GoError Json) (e : Envelope R) :
    Except GoError Json :=
  jsonMarshal enc (some e)

/-! ## Decoding an encoded envelope

The sources only encode. The decoder of the round trip is `json.Unmarshal`
into a zero `Envelope`, followed on documents: members are read in document
order, a later member overriding an earlier one. Member names are matched
exactly, and a number keeps its literal. -/

/-- The header key written by `BuildEnvelope`. -/
def eventTypeKey : String := "event_type"

/-- Go `func (s *StdoutBroker) BuildEnvelope(event events.Event)`. The type
assertion `event.(events.Message)` has the single-value form, which panics
when the event does not implement `Message`. -/
def StdoutBroker.BuildEnvelope {R : Type} (event : Event R) :
    Outcome (Option (Envelope R) × Option GoError) :=
  let eventType := event.EventType
  let envelope := Envelope.zero R
  match envelope.AddHeader eventTypeKey eventType with
  | .panic msg => .panic msg
  | .ret envelope =>
    match event.Content? with
    | none => .panic typeAssertPanic
    | some content => .ret (some { envelope with Message := content }, none)

/-- What `StdoutBroker.SendMessage` does: the output handed to
`logrus.Infof("%s", output)` and the returned error. -/
structure SendResult where
  logged : Option Json
  err : Option GoError

/-- Go `func (s *StdoutBroker) SendMessage(envelope *events.Envelope) error`:
`output, _ := json.Marshal(envelope)`, log the output, `return nil`. When
marshalling fails the output is the nil byte slice (`logged = none`). -/
def StdoutBroker.SendMessage {R : Type} (enc : R → Except GoError Json)
    (envelope : Option (Envelope R)) : SendResult :=
  let output : Option Json :=
    match jsonMarshal enc envelope with
    | .ok doc => some doc
    | .error _ => none
  { logged := output, err := none }

/-! ## pkg/broadcaster/broadcaster.go -/

/-- Modelled from the spec: the `Broker` interface of `pkg/brokers`, whose
declaration is absent from the sources: the capability
{`BuildEnvelope`, `SendMessage`}, stateless with respect to individual events.
Either method of an implementation may panic. -/
structure Broker (R : Type) where
  BuildEnvelope : Event R → Outcome (Option (Envelope R) × Option GoError)
  SendMessage : Option (Envelope R) → Outcome (Option GoError)

/-- The logging broker as a `Broker`. -/
def StdoutBroker.broker {R : Type} (enc : R → Except GoError Json) : Broker R where
  BuildEnvelope := StdoutBroker.BuildEnvelope
  SendMessage := fun envelope => .ret (StdoutBroker.SendMessage enc envelope).err

/-- Go `errors.Wrap` of `github.com/pkg/errors`: "Wrap returns an error annotating
err with a stack trace at the point Wrap is called, and the supplied message.
If err is nil, Wrap returns nil." -/
def errors.Wrap (err : Option GoError) (message : String) : Option GoError :=
  match err with
  | none => none
  | some cause => some (.withMessage cause message)

/-- The `*logrus.Entry` of the broadcaster, with its fields. -/
structure Logger where
  fields : List (String × String)

/-- A `*manager.Manager` that is not nil (external collaborator). -/
structure Manager where
  mk ::

/-- A `*controller.AgonesController` (external collaborator). -/
structure AgonesController where
  mk ::

/-- Go `type Broadcaster struct`. The field `logger *logrus.Entry` is nil
(`none`) in the zero value `Broadcaster{}`; `New` installs one. -/
structure Broadcaster (R : Type) where
  logger : Option Logger
  controllers : List AgonesController
  Broker : Option (Broker R)
  error : Option GoError
  Manager : Option Manager

/-- Calls leaving the broadcaster, in program order. -/
inductive Effect (R : Type) where
  | warn (msg : String)
  | logError (err : GoError) (msg : String)
  | buildEnvelope (event : Event R)
  | sendMessage (envelope : Option (Envelope R))

/-- The effect is a call of a broker method. -/
def Effect.isBrokerCall {R : Type} : Effect R → Bool
  | .buildEnvelope _ => true
  | .sendMessage _ => true
  | _ => false

/-- The effect is a call of `SendMessage`. -/
def Effect.isSend {R : Type} : Effect R → Bool
  | .sendMessage _ => true
  | _ => false

/-- A run of a broadcaster method: the broadcaster afterwards, the calls made,
and the returned value or panic. -/
structure Run (R : Type) (α : Type) where
  state : Broadcaster R
  trace : List (Effect R)
  out : Outcome α

/-- Message wrapped by `Build` when the manager is nil. -/
def msgNoManager : String := "broadcaster requires a manager to operate"

/-- Message wrapped by `Build` when no controller is registered. -/
def msgNoControllers : String :=
  "can't build a broadcaster without controllers, use WithController method to add a controller"

/-- Warning of `OnAdd` when the broker is nil. -/
def msgNoBroker : String :=
  "broker is not available for the broadcaster, message will not be published"

/-- Warning of `OnUpdate` and `OnDelete` when the broker is nil. -/
def msgNoABroker : String :=
  "a broker is not available for the broadcaster, message will not be published"

/-- Error log of `Publish` when `BuildEnvelope` fails. -/
def msgBuildFailed : String := "error building envelope"

/-- Error log of `Publish` when `SendMessage` fails. -/
def msgSendFailed : String := "error sending envelope"

/-- Go `func New(config, broker, syncPeriod) *Broadcaster`, given the result of
`manager.New`; nil when the manager could not be created. -/
def New {R : Type} (mgr : Except GoError Manager) (broker : Option (Broker R)) :
    Option (Broadcaster R) :=
  let broadcaster : Broadcaster R :=
    { logger := some { fields := [("source", "broadcaster")] }, controllers := [],
      Broker := broker, error := none, Manager := none }
  match mgr with
  | .error _ => none
  | .ok m => some { broadcaster with Manager := some m }

/-- Go `func (b *Broadcaster) addController(controller)`. -/
def Broadcaster.addController {R : Type} (b : Broadcaster R) (c : AgonesController) :
    Broadcaster R :=
  { b with controllers := b.controllers ++ [c] }

/-- Go `func (b *Broadcaster) Build() error`. -/
def Broadcaster.Build {R : Type} (b : Broadcaster R) : Broadcaster R × Option GoError :=
  let b1 : Broadcaster R :=
    if b.Manager.isNone then
      { b with error := errors.Wrap b.error msgNoManager }
    else b
  let b2 : Broadcaster R :=
    if b1.controllers.length = 0 then
      { b1 with error := errors.Wrap b1.error msgNoControllers }
    else b1
  match b2.error with
  | some err => (b2, some err)
  | none => (b2, none)

/-- Go `func (b *Broadcaster) Publish(event events.Event) error`. The calls
`b.logger.WithError(err).Error(...)` of the two failure branches go through
the logger pointer and panic when it is nil. -/
def Broadcaster.Publish {R : Type} (b : Broadcaster R) (event : Event R) :
    Run R (Option GoError) :=
  match b.Broker with
  | none => ⟨b, [], .panic nilDerefPanic⟩
  | some broker =>
    match broker.BuildEnvelope event with
    | .panic msg => ⟨b, [.buildEnvelope event], .panic msg⟩
    | .ret (_, some err) =>
      match b.logger with
      | none => ⟨b, [.buildEnvelope event], .panic nilDerefPanic⟩
      | some _ =>
        ⟨b, [.buildEnvelope event, .logError err msgBuildFailed], .ret (some err)⟩
    | .ret (envelope, none) =>
      match broker.SendMessage envelope with
      | .panic msg => ⟨b, [.buildEnvelope event, .sendMessage envelope], .panic msg⟩
      | .ret (some err) =>
        match b.logger with
        | none => ⟨b, [.buildEnvelope event, .sendMessage envelope], .panic nilDerefPanic⟩
        | some _ =>
          ⟨b, [.buildEnvelope event, .sendMessage envelope,
               .logError err msgSendFailed], .ret (some err)⟩
      | .ret none => ⟨b, [.buildEnvelope event, .sendMessage envelope], .ret none⟩

/-- Go `func (b *Broadcaster) OnAdd(obj interface{}) error`. The call
`b.logger.Warn(...)` of the nil-broker branch panics when the logger is nil. -/
def Broadcaster.OnAdd {R : Type} (b : Broadcaster R) (obj : Any R) : Run R (Option GoError) :=
  match b.Broker with
  | none =>
    match b.logger with
    | none => ⟨b, [], .panic nilDerefPanic⟩
    | some _ => ⟨b, [.warn msgNoBroker], .ret none⟩
  | some _ =>
    let message : EventMessage R := { Body := obj }
    let event := OnAdded message
    b.Publish event

/-- Go `func (b *Broadcaster) OnUpdate(oldObj interface{}, newObj interface{}) error`.
The call `b.logger.Warn(...)` of the nil-broker branch panics when the logger
is nil. -/
def Broadcaster.OnUpdate {R : Type} (b : Broadcaster R) (oldObj newObj : Any R) :
    Run R (Option GoError) :=
  match b.Broker with
  | none =>
    match b.logger with
    | none => ⟨b, [], .panic nilDerefPanic⟩
    | some _ => ⟨b, [.warn msgNoABroker], .ret none⟩
  | some _ =>
    let body : Any R := .oldNew oldObj newObj
    let message : EventMessage R := { Body := body }
    let event := OnUpdated message
    b.Publish event

/-- Go `func (b *Broadcaster) OnDelete(obj interface{}) error`. The call
`b.logger.Warn(...)` of the nil-broker branch panics when the logger is nil. -/
def Broadcaster.OnDelete {R : Type} (b : Broadcaster R) (obj : Any R) : Run R (Option GoError) :=
  match b.Broker with
  | none =>
    match b.logger with
    | none => ⟨b, [], .panic nilDerefPanic⟩
    | some _ => ⟨b, [.warn msgNoABroker], .ret none⟩
  | some _ =>
    let message : EventMessage R := { Body := obj }
    let event := OnDeleted message
    b.Publish event

/-! ## Concrete inputs

A universe of two resource objects: `true` serializes, `false` does not
(as a Go value holding a channel or a function would not). -/

/-- Serialization of the sample resource objects. -/
def sampleEnc : Bool → Except GoError Json
  | true => .ok (.bool true)
  | false => .error (.fundamental "json: unsupported type")

/-- An Added event for the serializable object. -/
def sampleAdded : Event Bool := OnAdded { Body := .val true }

/-- A Deleted event for the unserializable object. -/
def sampleDeleted : Event Bool := OnDeleted { Body := .val false }

/-- The header mapping with the single entry `event_type: added`. -/
def sampleHeaders : StrMap := AList.insert eventTypeKey sampleAdded.EventType ∅

/-- The envelope of `sampleAdded`. -/
def sampleEnvelope : Envelope Bool :=
  { Header := some { Headers := some sampleHeaders }, Message := .val true }

/-- The document `json.Marshal` produces for `sampleEnvelope`. -/
def sampleDoc : Json :=
  .obj [("header", .obj [("headers", .obj [("event_type", .str "added")])]),
        ("message", .bool true)]

/-- The envelope of `sampleDeleted`. -/
def sampleDeletedEnvelope : Envelope Bool :=
  { Header := some { Headers := some (AList.insert eventTypeKey sampleDeleted.EventType ∅) },
    Message := .val false }

/-- An envelope whose message does not serialize. -/
def sampleBadEnvelope : Envelope Bool := { Header := none, Message := .val false }

/-- A transport error. -/
def sampleTransportError : GoError := .fundamental "transport down"

/-- A broker that builds envelopes like the logging broker and whose
`SendMessage` fails on the message `false` and succeeds otherwise. -/
def sampleFlaky : Broker Bool where
  BuildEnvelope := StdoutBroker.BuildEnvelope
  SendMessage := fun envelope =>
    match envelope with
    | some { Header := _, Message := .val false } => .ret (some sampleTransportError)
    | _ => .ret none

/-- A broadcaster as `New` returns it, with the given broker. -/
def sampleRelay (broker : Option (Broker Bool)) : Broadcaster Bool :=
  { logger := some { fields := [("source", "broadcaster")] }, controllers := [],
    Broker := broker, error := none, Manager := some Manager.mk }

/-- The struct literal `Broadcaster{Broker: broker}`: every other field,
the logger included, has its zero value. -/
def sampleBare (broker : Option (Broker Bool)) : Broadcaster Bool :=
  { logger := none, controllers := [], Broker := broker, error := none, Manager := none }

/-! ## Envelope: AddHeader -/

/-- On an envelope whose header is nil, or whose header mapping is allocated,
`AddHeader` returns, and the result holds the same message and an allocated
mapping which is the old one (empty when the header was nil) with `key` set. -/
theorem AddHeader_of_wellformed {R : Type} (e : Envelope R) (key value : String)
    (h : e.Header = none ∨ e.allocated = true) :
    ∃ m : StrMap,
      (∀ k, m.lookup k = e.header? k) ∧ m.keys = e.headerKeys ∧
      e.AddHeader key value =
        .ret { Header := some { Headers := some (m.insert key value) }, Message := e.Message } := by
  obtain ⟨hdr, msg⟩ := e
  cases hdr with
  | none => exact ⟨∅, fun k => rfl, rfl, rfl⟩
  | some hd =>
    obtain ⟨hs⟩ := hd
    cases hs with
    | none => simp [Envelope.allocated] at h
    | some m => exact ⟨m, fun k => rfl, rfl, rfl⟩

/-- On an envelope whose header is nil, or whose header mapping is allocated,
`AddHeader` completes; afterwards header and mapping are allocated, `key` is
mapped to `value`, and the other keys and the message are as before. -/
theorem AddHeader_allocates_of_wellformed {R : Type} (e : Envelope R) (key value : String)
    (h : e.Header = none ∨ e.allocated = true) :
    ∃ e1 : Envelope R,
      e.AddHeader key value = .ret e1 ∧
      e1.allocated = true ∧
      e1.header? key = some value ∧
      (∀ k, k ≠ key → e1.header? k = e.header? k) ∧
      e1.Message = e.Message := by
  obtain ⟨m, hlook, _, hadd⟩ := AddHeader_of_wellformed e key value h
  refine ⟨_, hadd, rfl, AList.lookup_insert _, ?_, rfl⟩
  intro k hk
  simp [Envelope.header?, AList.lookup_insert_ne hk, hlook]

/-- Two writes of one key on an envelope whose header is nil or whose mapping
is allocated: the second value wins, the key occurs once, the other keys and
the message are untouched, and writing the same value twice equals writing it
once. -/
theorem AddHeaderTwice_of_wellformed {R : Type} (e : Envelope R) (key v1 v2 : String)
    (h : e.Header = none ∨ e.allocated = true) :
    ∃ e2 : Envelope R,
      e.AddHeaderTwice key v1 v2 = .ret e2 ∧
      e2.allocated = true ∧
      e2.header? key = some v2 ∧
      e2.headerKeys.count key = 1 ∧
      (∀ k, k ≠ key → e2.header? k = e.header? k) ∧
      e2.Message = e.Message ∧
      e.AddHeaderTwice key v1 v1 = e.AddHeader key v1 := by
  obtain ⟨m, hlook, _, hadd⟩ := AddHeader_of_wellformed e key v1 h
  refine ⟨{ Header := some { Headers := some (m.insert key v2) }, Message := e.Message },
    ?_, rfl, ?_, ?_, ?_, rfl, ?_⟩
  · rw [Envelope.AddHeaderTwice, hadd]
    simp [Envelope.AddHeader, AList.insert_insert]
  · simp [Envelope.header?, AList.lookup_insert]
  · have hn : ((m.insert key v2).keys).Nodup := AList.keys_nodup _
    have hm : key ∈ (m.insert key v2).keys := by simp [AList.keys_insert]
    simpa [Envelope.headerKeys] using List.count_eq_one_of_mem hn hm
  · intro k hk
    simp [Envelope.header?, AList.lookup_insert_ne hk, hlook]
  · rw [Envelope.AddHeaderTwice, hadd]
    simp [Envelope.AddHeader, AList.insert_insert]

/-- C10 (code at the failing input): on an envelope whose header is present
with a nil `Headers` map, `AddHeader` panics on the map assignment, for every
message, key and value; it does not complete and allocates nothing. -/
theorem AddHeader_nil_map_panics {R : Type} (msg : Any R) (key value : String) :
    Envelope.AddHeader { Header := some { Headers := none }, Message := msg } key value =
      .panic nilMapPanic :=
  rfl

/-- C5 (code at the failing input): on an envelope whose header is present
with a nil `Headers` map, `AddHeader(k, v1)` followed by `AddHeader(k, v2)`
panics at the first call, so no mapping with `k` set to `v2` results. -/
theorem AddHeaderTwice_nil_map_panics {R : Type} (msg : Any R) (key v1 v2 : String) :
    Envelope.AddHeaderTwice { Header := some { Headers := none }, Message := msg } key v1 v2 =
      .panic nilMapPanic :=
  rfl

/-! ## Round trip -/

/-- C4: for every event that exposes its content, `StdoutBroker.BuildEnvelope`
returns, with a nil error, an envelope built from the zero envelope whose
header mapping has the key `event_type` mapped to `event.EventType()` and no
other key, and whose message is the event's `Content()`. -/
theorem BuildEnvelope_of_content {R : Type} (event : Event R) (content : Any R)
    (h : event.Content? = some content) :
    ∃ envelope : Envelope R,
      StdoutBroker.BuildEnvelope event = .ret (some envelope, none) ∧
      envelope.header? eventTypeKey = some event.EventType ∧
      envelope.headerKeys = [eventTypeKey] ∧
      envelope.Message = content ∧
      Envelope.AddHeader { Envelope.zero R with Message := content } eventTypeKey
        event.EventType = .ret envelope := by
  refine ⟨{ Header := some { Headers := some (AList.insert eventTypeKey event.EventType ∅) },
            Message := content }, ?_, ?_, rfl, rfl, rfl⟩
  · simp [StdoutBroker.BuildEnvelope, Envelope.AddHeader, Envelope.zero, h]
  · exact AList.lookup_insert _

/-- Witness of C4: the Added event of the serializable sample object. -/
theorem BuildEnvelope_of_content_witness :
    sampleAdded.Content? = some (Any.val true) ∧
    ∃ envelope : Envelope Bool,
      StdoutBroker.BuildEnvelope sampleAdded = .ret (some envelope, none) ∧
      envelope.header? eventTypeKey = some sampleAdded.EventType ∧
      envelope.headerKeys = [eventTypeKey] ∧
      envelope.Message = Any.val true ∧
      Envelope.AddHeader { Envelope.zero Bool with Message := Any.val true } eventTypeKey
        sampleAdded.EventType = .ret envelope :=
  ⟨rfl, BuildEnvelope_of_content sampleAdded (Any.val true) rfl⟩

/-- C9 (code at the failing input): for an event that does not provide the
`Message` capability, whatever its type token, `StdoutBroker.BuildEnvelope`
panics on the type assertion; it returns neither an error nor an envelope. -/
theorem BuildEnvelope_without_content_panics {R : Type} (eventType : String) :
    StdoutBroker.BuildEnvelope ({ EventType := eventType, Content? := none } : Event R) =
      .panic typeAssertPanic :=
  rfl

/-- C6 (counterexample): in the document encoded for the envelope built from
the sample Added event, the member `header` is not the header map and has no
member `event_type`; the map sits one level down, under `headers`. -/
theorem Encode_header_is_not_the_map :
    StdoutBroker.BuildEnvelope sampleAdded = .ret (some sampleEnvelope, none) ∧
    sampleEnvelope.Encode sampleEnc = .ok sampleDoc ∧
    sampleDoc.path ["header", "event_type"] = none ∧
    sampleDoc.path ["header"] ≠ some (StrMap.marshal sampleHeaders) ∧
    sampleDoc.path ["header", "headers"] = some (StrMap.marshal sampleHeaders) := by
  refine ⟨rfl, rfl, rfl, ?_, rfl⟩
  simp [sampleDoc, Json.path, Json.get, StrMap.marshal, List.lookup, sampleHeaders,
    eventTypeKey]

/-- C6 (amended): for an event exposing a serializable content, the document
produced by `Encode` for the envelope `BuildEnvelope` returns, which is also
the output `SendMessage` logs, has a top-level member `header` that is an
object with the single member `headers`, itself the string-to-string map with
`event_type` set to the event's type token, and a top-level member `message`
holding the serialized content. -/
theorem Encode_of_built_envelope {R : Type} (enc : R → Except GoError Json)
    (event : Event R) (content : Any R) (payload : Json)
    (hc : event.Content? = some content) (hm : content.marshal enc = .ok payload) :
    ∃ (envelope : Envelope R) (doc : Json),
      StdoutBroker.BuildEnvelope event = .ret (some envelope, none) ∧
      envelope.Encode enc = .ok doc ∧
      (StdoutBroker.SendMessage enc (some envelope)).logged = some doc ∧
      doc = .obj [("header", .obj [("headers", .obj [("event_type", .str event.EventType)])]),
                  ("message", payload)] ∧
      doc.path ["header", "headers", "event_type"] = some (.str event.EventType) ∧
      doc.path ["message"] = some payload := by
  have hb : StdoutBroker.BuildEnvelope event =
      .ret (some { Header := some { Headers := some (AList.insert eventTypeKey event.EventType ∅) },
                   Message := content }, none) := by
    simp [StdoutBroker.BuildEnvelope, Envelope.AddHeader, Envelope.zero, hc]
  have he : Envelope.Encode enc
      { Header := some { Headers := some (AList.insert eventTypeKey event.EventType ∅) },
        Message := content } =
      .ok (.obj [("header", .obj [("headers", .obj [("event_type", .str event.EventType)])]),
                 ("message", payload)]) := by
    simp only [Envelope.Encode, jsonMarshal, Envelope.marshal, hm]
    rfl
  refine ⟨_, _, hb, he, ?_, rfl, rfl, rfl⟩
  simp only [StdoutBroker.SendMessage]
  rw [show jsonMarshal enc (some _) = Envelope.Encode enc _ from rfl, he]

/-- Witness of the amended C6: the sample Added event. -/
theorem Encode_of_built_envelope_witness :
    sampleAdded.Content? = some (Any.val true) ∧
    (Any.val true).marshal sampleEnc = .ok (.bool true) ∧
    ∃ (envelope : Envelope Bool) (doc : Json),
      StdoutBroker.BuildEnvelope sampleAdded = .ret (some envelope, none) ∧
      envelope.Encode sampleEnc = .ok doc ∧
      (StdoutBroker.SendMessage sampleEnc (some envelope)).logged = some doc ∧
      doc = .obj [("header", .obj [("headers", .obj [("event_type",
                    .str sampleAdded.EventType)])]),
                  ("message", .bool true)] ∧
      doc.path ["header", "headers", "event_type"] = some (.str sampleAdded.EventType) ∧
      doc.path ["message"] = some (.bool true) :=
  ⟨rfl, rfl, Encode_of_built_envelope sampleEnc sampleAdded (Any.val true) (.bool true) rfl rfl⟩

/-- C8 (counterexample): the sample envelope with an unserializable message
fails to encode, and `SendMessage` returns nil for it. -/
theorem SendMessage_swallows_encoding_error :
    sampleBadEnvelope.Encode sampleEnc = .error (.fundamental "json: unsupported type") ∧
    (StdoutBroker.SendMessage sampleEnc (some sampleBadEnvelope)).err = none ∧
    (StdoutBroker.SendMessage sampleEnc (some sampleBadEnvelope)).logged = none :=
  ⟨rfl, rfl, rfl⟩

/-- C8 (amended): `StdoutBroker.SendMessage` returns nil for every envelope,
whether or not it serializes; it logs the document when serialization
succeeds and an empty output when it fails. -/
theorem SendMessage_returns_nil {R : Type} (enc : R → Except GoError Json)
    (envelope : Option (Envelope R)) :
    (StdoutBroker.SendMessage enc envelope).err = none ∧
    (∀ doc, jsonMarshal enc envelope = .ok doc →
      (StdoutBroker.SendMessage enc envelope).logged = some doc) ∧
    (∀ err, jsonMarshal enc envelope = .error err →
      (StdoutBroker.SendMessage enc envelope).logged = none) := by
  refine ⟨rfl, ?_, ?_⟩
  · intro doc h
    simp [StdoutBroker.SendMessage, h]
  · intro err h
    simp [StdoutBroker.SendMessage, h]

/-! ## Broadcaster -/

/-- Without an accumulated error `Build` returns nil whatever the manager and
the controllers are, because `errors.Wrap` of a nil error is nil. -/
theorem Build_nil_of_no_error {R : Type} (b : Broadcaster R) (h : b.error = none) :
    b.Build.2 = none ∧ b.Build.1.error = none := by
  obtain ⟨lg, cs, br, er, mg⟩ := b
  simp only at h
  subst h
  cases mg <;> cases cs <;> exact ⟨rfl, rfl⟩

/-- With an accumulated error `cause`, a nil manager and no controllers,
`Build` returns the cause wrapped in both messages, and the text of the
returned error names both violations. -/
theorem Build_wraps_both_on_prior_error {R : Type} (logger : Option Logger)
    (broker : Option (Broker R)) (cause : GoError) :
    (Broadcaster.Build { logger := logger, controllers := [], Broker := broker,
                         error := some cause, Manager := none }).2 =
      some (.withMessage (.withMessage cause msgNoManager) msgNoControllers) ∧
    (GoError.withMessage (.withMessage cause msgNoManager) msgNoControllers).Error =
      msgNoControllers ++ ": " ++ (msgNoManager ++ ": " ++ cause.Error) :=
  ⟨rfl, rfl⟩

/-- C1 (code at the failing input): for every broadcaster whose manager is
nil, whose controller list is empty and which has no accumulated error,
`Build` returns nil and leaves the accumulated error nil: neither violation
is reported. -/
theorem Build_returns_nil_on_both_violations {R : Type} (logger : Option Logger)
    (broker : Option (Broker R)) :
    (Broadcaster.Build { logger := logger, controllers := [], Broker := broker,
                         error := none, Manager := none }).2 = none ∧
    (Broadcaster.Build { logger := logger, controllers := [], Broker := broker,
                         error := none, Manager := none }).1.error = none :=
  ⟨rfl, rfl⟩

/-- C2 (counterexample): on the struct literal `Broadcaster{}`, whose broker
and logger are both nil, `OnAdd`, `OnUpdate` and `OnDelete` panic in
`b.logger.Warn` instead of returning nil. -/
theorem handlers_panic_without_logger :
    (sampleBare none).Broker = none ∧
    ((sampleBare none).OnAdd (.val true)).out = .panic nilDerefPanic ∧
    ((sampleBare none).OnUpdate (.val true) (.val false)).out = .panic nilDerefPanic ∧
    ((sampleBare none).OnDelete (.val true)).out = .panic nilDerefPanic ∧
    ((sampleBare none).OnAdd (.val true)).out ≠ .ret none :=
  ⟨rfl, rfl, rfl, rfl, by simp [Broadcaster.OnAdd, sampleBare]⟩

/-- C2 (amended): for every broadcaster whose logger is set and whose broker
is nil, and for every payload, `OnAdd`, `OnUpdate` and `OnDelete` each return
nil, make no call of `BuildEnvelope` or `SendMessage` (their only effect is
one warning), and leave the broadcaster as it was. -/
theorem handlers_without_broker {R : Type} (b : Broadcaster R) (lg : Logger)
    (hl : b.logger = some lg) (h : b.Broker = none) (obj oldObj newObj : Any R) :
    ((b.OnAdd obj).out = .ret none ∧
      (∀ x ∈ (b.OnAdd obj).trace, x.isBrokerCall = false) ∧
      (b.OnAdd obj).trace = [.warn msgNoBroker] ∧ (b.OnAdd obj).state = b) ∧
    ((b.OnUpdate oldObj newObj).out = .ret none ∧
      (∀ x ∈ (b.OnUpdate oldObj newObj).trace, x.isBrokerCall = false) ∧
      (b.OnUpdate oldObj newObj).trace = [.warn msgNoABroker] ∧
      (b.OnUpdate oldObj newObj).state = b) ∧
    ((b.OnDelete obj).out = .ret none ∧
      (∀ x ∈ (b.OnDelete obj).trace, x.isBrokerCall = false) ∧
      (b.OnDelete obj).trace = [.warn msgNoABroker] ∧ (b.OnDelete obj).state = b) := by
  simp [Broadcaster.OnAdd, Broadcaster.OnUpdate, Broadcaster.OnDelete, h, hl,
    Effect.isBrokerCall]

/-- Witness of the amended C2: a broadcaster as `New` returns it when given a
nil broker, on the update of the sample object from `true` to `false`. -/
theorem handlers_without_broker_witness :
    (sampleRelay none).logger = some { fields := [("source", "broadcaster")] } ∧
    (sampleRelay none).Broker = none ∧
    ((sampleRelay none).OnAdd (.val true)).out = .ret none ∧
    ((sampleRelay none).OnUpdate (.val true) (.val false)).out = .ret none ∧
    ((sampleRelay none).OnDelete (.val true)).out = .ret none ∧
    ((sampleRelay none).OnUpdate (.val true) (.val false)).trace = [.warn msgNoABroker] :=
  have w := handlers_without_broker (sampleRelay none) _ rfl rfl (.val true) (.val true)
    (.val false)
  ⟨rfl, rfl, w.1.1, w.2.1.1, w.2.2.1, w.2.1.2.2.1⟩

/-- With a nil broker the handlers never call the broker and never change the
broadcaster, whether the logger is set or not. -/
theorem handlers_without_broker_make_no_call {R : Type} (b : Broadcaster R)
    (h : b.Broker = none) (obj oldObj newObj : Any R) :
    ((∀ x ∈ (b.OnAdd obj).trace, x.isBrokerCall = false) ∧ (b.OnAdd obj).state = b) ∧
    ((∀ x ∈ (b.OnUpdate oldObj newObj).trace, x.isBrokerCall = false) ∧
      (b.OnUpdate oldObj newObj).state = b) ∧
    ((∀ x ∈ (b.OnDelete obj).trace, x.isBrokerCall = false) ∧ (b.OnDelete obj).state = b) := by
  cases hl : b.logger <;>
    simp [Broadcaster.OnAdd, Broadcaster.OnUpdate, Broadcaster.OnDelete, h, hl,
      Effect.isBrokerCall]

/-- C3 (counterexample): on the struct literal `Broadcaster{Broker: flaky}`,
whose logger is nil, publishing the event whose `SendMessage` fails with the
transport error panics in `b.logger.WithError` instead of returning that
error. -/
theorem Publish_panics_without_logger :
    (sampleBare (some sampleFlaky)).Broker = some sampleFlaky ∧
    sampleFlaky.BuildEnvelope sampleDeleted = .ret (some sampleDeletedEnvelope, none) ∧
    sampleFlaky.SendMessage (some sampleDeletedEnvelope) = .ret (some sampleTransportError) ∧
    ((sampleBare (some sampleFlaky)).Publish sampleDeleted).out = .panic nilDerefPanic ∧
    ((sampleBare (some sampleFlaky)).Publish sampleDeleted).out ≠
      .ret (some sampleTransportError) :=
  ⟨rfl, rfl, rfl, rfl, by
    rw [show ((sampleBare (some sampleFlaky)).Publish sampleDeleted).out =
      .panic nilDerefPanic from rfl]
    simp⟩

/-- C3 (amended): for every broadcaster whose logger is set and which holds a
broker, and for every event, `Publish` returns the error of the first failing
step. If `BuildEnvelope` returns an error, `Publish` returns it and
`SendMessage` is not called; if `BuildEnvelope` succeeds and `SendMessage`
returns an error, `Publish` returns that one; `Publish` returns nil exactly
when both succeed. The broadcaster is left unchanged, so publishing a second
event afterwards gives what publishing it alone gives. -/
theorem Publish_first_failing_step {R : Type} (b : Broadcaster R) (lg : Logger)
    (broker : Broker R) (event : Event R) (hl : b.logger = some lg)
    (hb : b.Broker = some broker) :
    (∀ envelope err, broker.BuildEnvelope event = .ret (envelope, some err) →
      (b.Publish event).out = .ret (some err) ∧
      ∀ x ∈ (b.Publish event).trace, x.isSend = false) ∧
    (∀ envelope err, broker.BuildEnvelope event = .ret (envelope, none) →
      broker.SendMessage envelope = .ret (some err) →
      (b.Publish event).out = .ret (some err)) ∧
    ((b.Publish event).out = .ret none ↔
      ∃ envelope, broker.BuildEnvelope event = .ret (envelope, none) ∧
        broker.SendMessage envelope = .ret none) ∧
    (b.Publish event).state = b ∧
    (∀ next : Event R, (b.Publish event).state.Publish next = b.Publish next) := by
  have hstate : (b.Publish event).state = b := by
    simp only [Broadcaster.Publish, hb, hl]
    split
    · rfl
    · rfl
    · split <;> rfl
  refine ⟨?_, ?_, ?_, hstate, fun next => by rw [hstate]⟩
  · intro envelope err h
    simp [Broadcaster.Publish, hb, hl, h, Effect.isSend]
  · intro envelope err h hs
    simp [Broadcaster.Publish, hb, hl, h, hs]
  · simp only [Broadcaster.Publish, hb, hl]
    cases hbe : broker.BuildEnvelope event with
    | panic msg => simp
    | ret r =>
      obtain ⟨envelope, err⟩ := r
      cases err with
      | some e => simp
      | none =>
        cases hse : broker.SendMessage envelope with
        | panic msg => simp [hse]
        | ret r2 =>
          cases r2 with
          | some e => simp [hse]
          | none => simp [hse]

/-- Witness of the amended C3: with the flaky sample broker on a broadcaster
as `New` returns it, publishing the Deleted event of the object its transport
rejects returns the transport error, and publishing the Added event
afterwards returns nil. -/
theorem Publish_first_failing_step_witness :
    (sampleRelay (some sampleFlaky)).logger = some { fields := [("source", "broadcaster")] } ∧
    (sampleRelay (some sampleFlaky)).Broker = some sampleFlaky ∧
    ((sampleRelay (some sampleFlaky)).Publish sampleDeleted).out =
      .ret (some sampleTransportError) ∧
    (((sampleRelay (some sampleFlaky)).Publish sampleDeleted).state.Publish sampleAdded).out =
      .ret none :=
  have w := Publish_first_failing_step (sampleRelay (some sampleFlaky)) _ sampleFlaky
    sampleDeleted rfl rfl
  ⟨rfl, rfl, w.2.1 _ _ rfl rfl, by rw [w.2.2.2.1]; rfl⟩

end Relay
